import Mathlib

/-!
Verification of the natural-language specification of `pi_spooky_video`
against its source, `src/video_button_runner.py`.

The Python source is shallowly embedded below.  Filesystem and process
effects are made explicit:

* a file's `stat` result is a record of size and modification time
  (`st_mtime` is a rational number of seconds; Python's `int()` truncation
  toward zero is `pyTruncSec`), and a call that can raise `OSError` is an
  `Option`-valued field of the input;
* the media-store directory is an association list from destination paths
  (lists of path components) to an optional stat (`none` = the destination
  file exists but its stat raises; absent key = the file does not exist);
* the mount table and the external `mount`/`umount`/player processes are
  oracles supplied as inputs, and the side effects a function performs are
  returned as an explicit trace of `Act` values.

`scan_usb_candidates` is called by `check_usb_for_updates` and
`perform_copy_and_unmount` but is not defined anywhere in the repository's
source; it is abstracted as an explicit parameter `cands` mapping a
mountpoint to its candidate directories.  Likewise the nested calls to
`would_copy_new_videos` / `copy_new_videos` made on a candidate directory
are abstracted, inside the USB-cycle functions, as boolean-valued oracles
on the candidate directory path (their file-level behaviour is embedded
separately and verified on its own).
-/

namespace PiSpooky

/-! ### Python string primitives -/

/-- Python `str.lower()` (ASCII case folding suffices for the extension sets
used by the source). -/
def lowerStr (s : String) : String := String.mk (s.toList.map Char.toLower)

/-- Python `str.endswith(p)`. -/
def strEndsWith (s p : String) : Bool := List.isSuffixOf p.toList s.toList

/-- Python `str.strip()`. -/
def pyStrip (s : String) : String :=
  String.mk (((s.toList.dropWhile Char.isWhitespace).reverse.dropWhile
    Char.isWhitespace).reverse)

/-- Python `int()` applied to a float `st_mtime`: truncation toward zero. -/
def pyTruncSec (q : ℚ) : Int := Int.tdiv q.num q.den

/-! ### Configuration constants (source lines 9-25) -/

/-- `VIDEO_EXTS = (".mp4", ".mov", ".mkv", ".avi", ".m4v")`. -/
def VIDEO_EXTS : List String := [".mp4", ".mov", ".mkv", ".avi", ".m4v"]

/-- `USB_DEFAULT_MOUNT = USB_MOUNT_BASE / "usb"`, i.e. `/media/usb`. -/
def USB_DEFAULT_MOUNT : String := "/media/usb"

/-! ### File-level sync model (`would_copy_new_videos`, `copy_new_videos`) -/

/-- The result of a successful `os.stat` call: the two fields the source
compares (`st_size`, `st_mtime`). -/
structure Stat where
  size : Nat
  mtime : ℚ
deriving DecidableEq, Repr

/-- One file yielded by `os.walk` inside some walked directory: its basename,
its stat result (`none` = `src.stat()` raises), and whether a
`shutil.copy2` from it would succeed (`false` = `copy2` raises and the
per-file `except` clause fires). -/
structure SrcFile where
  name : String
  stat : Option Stat
  copyOk : Bool
deriving DecidableEq, Repr

/-- One `(root, dirs, files)` triple yielded by `os.walk(src_dir)`; `root` is
kept as a list of path components. -/
structure WalkDir where
  root : List String
  files : List SrcFile
deriving DecidableEq, Repr

/-- The destination directory's contents: destination path -> optional stat
(`some none` = the file exists but `dst.stat()` raises). -/
abbrev Store : Type := List (List String × Option Stat)

/-- `name.lower().endswith(VIDEO_EXTS)` (source lines 68 and 91). -/
def nameHasVideoExt (n : String) : Bool :=
  VIDEO_EXTS.any (fun e => strEndsWith (lowerStr n) e)

/-- `dst = dst_dir / name` (source lines 71 and 94): the destination path is
the store directory plus the file's basename; the walk root is in scope but
never used. -/
def fileDst (dstDir : List String) (root : List String) (name : String) :
    List String :=
  dstDir ++ [name]

/-- Look a destination path up in the store (`dst.exists()` is `isSome` of
this). -/
def slookup (st : Store) (k : List String) : Option (Option Stat) :=
  (List.find? (fun e => decide (e.1 = k)) st).map (fun e => e.2)

/-- Overwrite (or create) a destination file; `shutil.copy2` preserves the
source's stat metadata, so the stored stat is the source's. -/
def sset (st : Store) (k : List String) (v : Option Stat) : Store :=
  (k, v) :: st

/-- The per-file decision of `would_copy_new_videos` (source lines 72-80),
taken after the extension filter: `True` when the destination is missing,
when size or truncated mtime differ, or when a stat raises. -/
def probeNeeds (dstDir root : List String) (st : Store) (f : SrcFile) : Bool :=
  match slookup st (fileDst dstDir root f.name) with
  | none => true
  | some dstStat =>
    match f.stat, dstStat with
    | some s, some d =>
        decide (s.size ≠ d.size) || decide (pyTruncSec s.mtime ≠ pyTruncSec d.mtime)
    | _, _ => true

/-- `would_copy_new_videos(src_dir, dst_dir)` (source lines 62-81): `False`
when `src_dir` does not exist, otherwise `True` iff some walked file passes
the extension filter and needs a copy.  (The source's early `return True` is
equivalent to `List.any` because the probe is read-only.) -/
def would_copy_new_videos (srcExists : Bool) (dstDir : List String)
    (walk : List WalkDir) (st : Store) : Bool :=
  srcExists && walk.any (fun wd =>
    wd.files.any (fun f => nameHasVideoExt f.name && probeNeeds dstDir wd.root st f))

/-- The evolving state of one `copy_new_videos` run: the store, the
`copied_any` flag, and (ghost instrumentation) the list of destination paths
actually written. -/
structure CopyState where
  st : Store
  copied : Bool
  writes : List (List String)
deriving DecidableEq, Repr

/-- The per-file body of `copy_new_videos` (source lines 90-103): skip
non-video names; copy when the destination is missing or differs in size or
truncated mtime; a raising `stat` or `copy2` is swallowed by the per-file
`except: pass`. -/
def copyStep (dstDir root : List String) (cs : CopyState) (f : SrcFile) :
    CopyState :=
  if nameHasVideoExt f.name then
    match slookup cs.st (fileDst dstDir root f.name) with
    | none =>
      match f.stat with
      | some s =>
        if f.copyOk then
          ⟨sset cs.st (fileDst dstDir root f.name) (some s), true,
            cs.writes ++ [fileDst dstDir root f.name]⟩
        else cs
      | none => cs
    | some dstStat =>
      match f.stat, dstStat with
      | some s, some d =>
        if decide (s.size ≠ d.size) || decide (pyTruncSec s.mtime ≠ pyTruncSec d.mtime) then
          if f.copyOk then
            ⟨sset cs.st (fileDst dstDir root f.name) (some s), true,
              cs.writes ++ [fileDst dstDir root f.name]⟩
          else cs
        else cs
      | _, _ => cs
  else cs

/-- `copy_new_videos(src_dir, dst_dir)` (source lines 83-104): `ensure_dir`
is a filesystem no-op in the model; returns unchanged store and `False` when
`src_dir` does not exist; otherwise folds `copyStep` over the walk. -/
def copy_new_videos (srcExists : Bool) (dstDir : List String)
    (walk : List WalkDir) (st : Store) : CopyState :=
  if srcExists then
    walk.foldl (fun cs wd => wd.files.foldl (copyStep dstDir wd.root) cs)
      ⟨st, false, []⟩
  else ⟨st, false, []⟩

/-! ### Mount model (`is_mounted`, `mount_partition`, `unmount_path`) -/

/-- The mount-table environment of one device for one cycle: `pre` is what
`is_mounted(dev)` returns before we touch it (the pre-existing system
mountpoint, if any), and `mountOk` says whether the
`mount -o ro dev /media/usb` subprocess succeeds (in which case
`is_mounted(dev)` afterwards reports `/media/usb`). -/
structure MountEnv where
  pre : Option String
  mountOk : Bool
deriving DecidableEq, Repr

/-- `mount_partition(dev)` (source lines 46-56): returns
`(mountpoint?, mounted_by_us)`; a pre-existing mount is returned with
`mounted_by_us = False`; otherwise a read-only mount at `/media/usb` is
attempted, yielding `(/media/usb, True)` on success and `(None, False)` on
failure (`subprocess.run` with `check=False` never raises). -/
def mount_partition (e : MountEnv) : Option String × Bool :=
  match e.pre with
  | some p => (some p, false)
  | none => if e.mountOk then (some USB_DEFAULT_MOUNT, true) else (none, false)

/-! ### USB sync cycle (`check_usb_for_updates`, `perform_copy_and_unmount`) -/

/-- The externally observable actions of one orchestrator-loop iteration. -/
inductive Act where
  | stop
  | copyDir (cand : String)
  | umount (mnt : String)
  | pickNewest
  | startPlaying (f : String)
  | waitEof
deriving DecidableEq, Repr

/-- Python tuple membership `(mnt, mounted_by_us) in needs`. -/
def pairMem (p : String × Bool) (l : List (String × Bool)) : Bool :=
  l.any (fun q => decide (q = p))

/-- The per-device body of `check_usb_for_updates` (source lines 112-124):
mount, probe every candidate directory (appending to `needs` and breaking
out on the first hit, via the caught `StopIteration`), then unmount
immediately when the device's pair is not in `needs` and we mounted it. -/
def checkStep (wouldCopy : String → Bool) (cands : String → List String)
    (acc : List (String × Bool) × List Act) (e : MountEnv) :
    List (String × Bool) × List Act :=
  match mount_partition e with
  | (none, _) => acc
  | (some mnt, byUs) =>
    let needs :=
      if (cands mnt).any wouldCopy then acc.1 ++ [(mnt, byUs)] else acc.1
    if !pairMem (mnt, byUs) needs && byUs then (needs, acc.2 ++ [Act.umount mnt])
    else (needs, acc.2)

/-- `check_usb_for_updates()` (source lines 106-125), returning the `needs`
list and the trace of immediate unmounts performed during the probe.
`wouldCopy` abstracts `would_copy_new_videos(cand, TARGET_DIR)` on a
candidate directory for this cycle. -/
def check_usb_for_updates (wouldCopy : String → Bool)
    (cands : String → List String) (devs : List MountEnv) :
    List (String × Bool) × List Act :=
  devs.foldl (checkStep wouldCopy cands) ([], [])

/-- The per-volume body of `perform_copy_and_unmount` (source lines
129-134): copy from every candidate directory (OR-ing the results into
`copied_any`), then unmount if we mounted the volume.  `copyNew` abstracts
`copy_new_videos(cand, TARGET_DIR)` on a candidate directory. -/
def performStep (copyNew : String → Bool) (cands : String → List String)
    (acc : Bool × List Act) (p : String × Bool) : Bool × List Act :=
  let copied := acc.1 || (cands p.1).any copyNew
  let acts := acc.2 ++ (cands p.1).map Act.copyDir
  if p.2 then (copied, acts ++ [Act.umount p.1]) else (copied, acts)

/-- `perform_copy_and_unmount(needs_list)` (source lines 127-135). -/
def perform_copy_and_unmount (copyNew : String → Bool)
    (cands : String → List String) (needs : List (String × Bool)) :
    Bool × List Act :=
  needs.foldl (performStep copyNew cands) (false, [])

/-! ### Store query (`pick_video_from_target`) -/

/-- One entry of `TARGET_DIR.iterdir()`: its basename, whether `is_file()`
holds (that call returns `False` instead of raising), and its stat result
(`none` = `p.stat()` raises, e.g. the file vanished after the listing). -/
structure TEntry where
  name : String
  isFile : Bool
  stat : Option Stat
deriving DecidableEq, Repr

/-- Index of the last `'.'` in a name, if any. -/
def lastDotIdx (cs : List Char) : Option Nat :=
  cs.enum.foldl (fun acc p => if p.2 = '.' then some p.1 else acc) none

/-- `pathlib.PurePath.suffix`: the part of the basename from its final dot,
empty when the final dot is the first character or the last character. -/
def pySuffix (n : String) : String :=
  let cs := n.toList
  match lastDotIdx cs with
  | some i => if 0 < i ∧ i < cs.length - 1 then String.mk (cs.drop i) else ("")
  | none => ""

/-- The sort keys of `vids.sort(key=lambda p: p.stat().st_mtime, ...)`:
Python evaluates `p.stat()` for every element before sorting, so a single
raising stat aborts the whole call; `none` models that abort. -/
def statKeys : List TEntry → Option (List (TEntry × ℚ))
  | [] => some []
  | e :: es =>
    match e.stat, statKeys es with
    | some s, some r => some ((e, s.mtime) :: r)
    | _, _ => none

/-- head of the stable descending sort: the earliest element whose key is
maximal (`vids[0]` after `sort(..., reverse=True)`). -/
def argmaxFirst (h : TEntry × ℚ) (t : List (TEntry × ℚ)) : TEntry :=
  (t.foldl (fun b p => if b.2 < p.2 then p else b) h).1

/-- `pick_video_from_target()` (source lines 137-144): `None` when the
directory is absent; filter `iterdir()` by `p.suffix.lower() in VIDEO_EXTS
and p.is_file()`; `None` when no candidate; otherwise sort by `st_mtime`
descending and return the first — `Except.error` models the uncaught
exception raised when any candidate's `p.stat()` fails inside the sort. -/
def pick_video_from_target (dirExists : Bool) (entries : List TEntry) :
    Except Unit (Option TEntry) :=
  if dirExists then
    match entries.filter
        (fun p => VIDEO_EXTS.contains (lowerStr (pySuffix p.name)) && p.isFile) with
    | [] => Except.ok none
    | v :: vs =>
      match v.stat, statKeys vs with
      | some s, some ks => Except.ok (some (argmaxFirst (v, s.mtime) ks))
      | _, _ => Except.error ()
  else Except.ok none

/-! ### Player backends (`MPVPlayer`, `OMXPlayer`) -/

/-- A tracked child-process handle; `alive` is `poll() is None`. -/
structure Proc where
  alive : Bool
deriving DecidableEq, Repr

/-- The session-relevant state of an `MPVPlayer`: the tracked child process
(retained, never reset to `None`, by `stop`) and whether the IPC socket file
currently exists on disk. -/
structure MPVState where
  proc : Option Proc
  sockExists : Bool
deriving DecidableEq, Repr

/-- `MPVPlayer.stop()` (source lines 237-249): best-effort `quit` over IPC
(external, no session-state effect), then terminate/kill the tracked process
if it is still alive (the handle itself is retained), then remove the IPC
socket file if present.  Every step is wrapped in `try/except`, so the
function is total. -/
def mpv_stop (s : MPVState) : MPVState :=
  { proc := s.proc.map (fun _ => { alive := false }), sockExists := false }

/-- The session-relevant state of an `OMXPlayer`: just the tracked child
process. -/
structure OMXState where
  proc : Option Proc
deriving DecidableEq, Repr

/-- `OMXPlayer.stop()` (source lines 312-320): if the tracked process is
alive, send `q` and wait (terminating on timeout, all inside `try/except`);
in every case finish with `self.proc = None`. -/
def omx_stop (_s : OMXState) : OMXState :=
  { proc := none }

/-- A Python value as far as `resp.get("data") is True` can observe it:
the comparison is an identity test against the `True` singleton, so only
`vtrue` passes (`1 == True` but `1 is not True`). -/
inductive PyVal where
  | vtrue
  | vfalse
  | vnone
  | vint (n : Int)
  | vstr (s : String)
deriving DecidableEq, Repr

/-- The outcome of the one-shot IPC exchange inside `MPVPlayer.is_eof`:
`err` is any raised exception (connect/send failure, recv timeout,
`json.loads` failure); `empty` is `recv` returning no data; `parsed` carries
whether the decoded reply is a dict and its `"data"` field, if any. -/
inductive MPVReply where
  | err
  | empty
  | parsed (isDict : Bool) (dataField : Option PyVal)
deriving DecidableEq, Repr

/-- `MPVPlayer.is_eof()` (source lines 223-235): query the `eof-reached`
property over the IPC socket with a 0.2 s receive timeout; `False` on any
exception or empty reply; otherwise `bool(isinstance(resp, dict) and
resp.get("data") is True)`. -/
def mpv_is_eof : MPVReply → Bool
  | MPVReply.err => false
  | MPVReply.empty => false
  | MPVReply.parsed isDict dataField =>
      isDict && decide (dataField = some PyVal.vtrue)

/-- `OMXPlayer.is_eof()` (source lines 308-310):
`self.proc is not None and (self.proc.poll() is not None)` — a child was
spawned and has exited. -/
def omx_is_eof (s : OMXState) : Bool :=
  match s.proc with
  | none => false
  | some p => !p.alive

/-! ### Backend selection (`pick_player`) and startup -/

/-- Error message of `pick_player` when `mpv` is requested but absent. -/
def MPV_MISSING_MSG : String := "mpv requested but not found in PATH"

/-- Error message of `pick_player` when `omxplayer` is requested but
absent. -/
def OMX_MISSING_MSG : String := "omxplayer requested but not found in PATH"

/-- Error message of `pick_player` when neither backend executable is
found in auto mode. -/
def NEITHER_MSG : String :=
  "Neither mpv nor omxplayer found. Install one: sudo apt install mpv OR sudo apt install omxplayer"

/-- The effective mode of `pick_player` (source lines 325-328):
`(mode or "auto").lower()`, overridden by
`os.environ.get("VIDEO_PLAYER", "").lower().strip()` when the latter is
`"mpv"` or `"omxplayer"`. -/
def effective_mode (mode envPlayer : Option String) : String :=
  let m0 := lowerStr (mode.getD ("auto"))
  let e := pyStrip (lowerStr (envPlayer.getD ("")))
  if e = "mpv" ∨ e = "omxplayer" then e else m0

/-- `pick_player(mode)` (source lines 324-342): `whichMpv` / `whichOmx` are
`shutil.which` oracles for the two executables; `Except.error` models the
raised `RuntimeError`; the payload of `Except.ok` is the returned backend
name. -/
def pick_player (mode envPlayer : Option String) (whichMpv whichOmx : Bool) :
    Except String String :=
  let m := effective_mode mode envPlayer
  if m = "mpv" then
    if whichMpv then Except.ok m else Except.error MPV_MISSING_MSG
  else if m = "omxplayer" then
    if whichOmx then Except.ok m else Except.error OMX_MISSING_MSG
  else if whichMpv then Except.ok ("mpv")
  else if whichOmx then Except.ok ("omxplayer")
  else Except.error NEITHER_MSG

/-- The startup prefix of `main_loop` (source lines 344-347): `ensure_dir`
and the `Button` construction are effect no-ops in the model, then
`pick_player` runs; a raised error propagates out of `main_loop`, so the
`while True` loop at line 352 is reached only on `Except.ok`. -/
def main_startup (mode envPlayer : Option String) (whichMpv whichOmx : Bool) :
    Except String String :=
  pick_player mode envPlayer whichMpv whichOmx

/-! ### One orchestrator loop iteration, phase A (source lines 352-371) -/

/-- Where control goes after phase A: `resync` is the `continue` back to the
USB sync check; `phaseB` falls through to the paused-preview/button phase at
line 373. -/
inductive Next where
  | resync
  | phaseB
deriving DecidableEq, Repr

/-- Phase A of one `while True` iteration of `main_loop` (source lines
352-371): run the sync check; if any volume needs a copy, stop the player
(`hasattr(player, "stop")` always holds for both backends), copy and
unmount, and — when anything was copied and the store query returns a file —
start it playing immediately and block until end of stream, then `continue`
back to the sync check.  The result pairs the trace of performed actions
with where control goes next; `Except.error` is an uncaught exception from
`pick_video_from_target`. -/
def main_iter (wouldCopy copyNew : String → Bool)
    (cands : String → List String) (devs : List MountEnv)
    (tExists : Bool) (tEntries : List TEntry) :
    Except Unit (List Act × Next) :=
  let chk := check_usb_for_updates wouldCopy cands devs
  if chk.1.isEmpty then Except.ok (chk.2, Next.phaseB)
  else
    let pr := perform_copy_and_unmount copyNew cands chk.1
    let acts := chk.2 ++ [Act.stop] ++ pr.2
    if pr.1 then
      match pick_video_from_target tExists tEntries with
      | Except.error e => Except.error e
      | Except.ok none => Except.ok (acts ++ [Act.pickNewest], Next.phaseB)
      | Except.ok (some f) =>
          Except.ok (acts ++ [Act.pickNewest, Act.startPlaying f.name, Act.waitEof],
            Next.resync)
    else Except.ok (acts, Next.phaseB)

/-! ### Theorems -/

/-- C1: for every store file and candidate file whose stats are readable and
that have equal size and equal truncated-to-integer-second modification
time, the per-pair decision of the dry-run probe (`would_copy_new_videos`)
is `false`, and the per-file body of `copy_new_videos` performs no write for
that pair (it leaves the run state — store, flag and write trace —
unchanged). -/
theorem c1_equal_pair_no_action (dstDir root : List String) (st : Store)
    (f : SrcFile) (s d : Stat)
    (hs : f.stat = some s)
    (hd : slookup st (fileDst dstDir root f.name) = some (some d))
    (hsize : s.size = d.size)
    (hmt : pyTruncSec s.mtime = pyTruncSec d.mtime) :
    probeNeeds dstDir root st f = false ∧
    ∀ cs : CopyState, cs.st = st → copyStep dstDir root cs f = cs := by
  constructor
  · unfold probeNeeds
    rw [hd, hs]
    simp [hsize, hmt]
  · intro cs hcs
    unfold copyStep
    rw [hcs, hd, hs]
    simp [hsize, hmt]

/-- Witness for C1 at a concrete equal pair. -/
theorem c1_equal_pair_no_action_witness :
    probeNeeds ["store"] ["usb", "sub"] [(["store", "v.mp4"], some ⟨3, 7⟩)]
      ⟨"v.mp4", some ⟨3, 7⟩, true⟩ = false ∧
    copyStep ["store"] ["usb", "sub"]
      ⟨[(["store", "v.mp4"], some ⟨3, 7⟩)], false, []⟩
      ⟨"v.mp4", some ⟨3, 7⟩, true⟩ =
      ⟨[(["store", "v.mp4"], some ⟨3, 7⟩)], false, []⟩ := by
  have h := c1_equal_pair_no_action ["store"] ["usb", "sub"]
    [(["store", "v.mp4"], some ⟨3, 7⟩)] ⟨"v.mp4", some ⟨3, 7⟩, true⟩
    ⟨3, 7⟩ ⟨3, 7⟩ rfl rfl rfl rfl
  exact ⟨h.1, h.2 _ rfl⟩

/-- C4: the end-of-stream poll is conservative: `MPVPlayer.is_eof` returns
`true` exactly when the IPC exchange delivered a parsed dict reply whose
`data` field is identically `True`, and returns `false` on any exception,
timeout, empty or malformed answer; `OMXPlayer.is_eof` returns `true`
exactly when a child process was spawned and has exited.  Both functions are
total in the model (the source wraps the socket exchange in `try/except` and
the process poll cannot raise). -/
theorem c4_eof_poll_conservative :
    (∀ r : MPVReply,
      mpv_is_eof r = true ↔ r = MPVReply.parsed true (some PyVal.vtrue)) ∧
    (∀ s : OMXState,
      omx_is_eof s = true ↔ ∃ p, s.proc = some p ∧ p.alive = false) := by
  constructor
  · intro r
    cases r with
    | err => simp [mpv_is_eof]
    | empty => simp [mpv_is_eof]
    | parsed isDict dataField =>
      simp only [mpv_is_eof, Bool.and_eq_true, decide_eq_true_eq]
      constructor
      · rintro ⟨h1, h2⟩
        subst h1
        subst h2
        rfl
      · intro h
        cases h
        exact ⟨rfl, rfl⟩
  · intro s
    obtain ⟨proc⟩ := s
    cases proc with
    | none => simp [omx_is_eof]
    | some p =>
      obtain ⟨alive⟩ := p
      cases alive <;> simp [omx_is_eof]

/-- Witness for C4: a true-valued `data` reply and an exited child. -/
theorem c4_eof_poll_conservative_witness :
    mpv_is_eof (MPVReply.parsed true (some PyVal.vtrue)) = true ∧
    omx_is_eof ⟨some ⟨false⟩⟩ = true :=
  ⟨(c4_eof_poll_conservative.1 (MPVReply.parsed true (some PyVal.vtrue))).mpr rfl,
   (c4_eof_poll_conservative.2 ⟨some ⟨false⟩⟩).mpr ⟨⟨false⟩, rfl, rfl⟩⟩

/-- C7: `mount_partition` returns a pre-existing mountpoint with
`mounted_by_us = false`; otherwise it attempts the read-only mount at the
fixed default path, returning that path with `mounted_by_us = true` on
success and `(none, false)` on failure — always without raising (the model
is a total function, as the source uses `check=False`). -/
theorem c7_mount_partition_contract (e : MountEnv) :
    (∀ p, e.pre = some p → mount_partition e = (some p, false)) ∧
    (e.pre = none → e.mountOk = true →
      mount_partition e = (some USB_DEFAULT_MOUNT, true)) ∧
    (e.pre = none → e.mountOk = false → mount_partition e = (none, false)) := by
  obtain ⟨pre, ok⟩ := e
  refine ⟨?_, ?_, ?_⟩
  · intro p hp
    simp only at hp
    subst hp
    rfl
  · intro h1 h2
    simp only at h1 h2
    subst h1
    subst h2
    rfl
  · intro h1 h2
    simp only at h1 h2
    subst h1
    subst h2
    rfl

/-- Witness for C7 on the three concrete mount environments. -/
theorem c7_mount_partition_contract_witness :
    mount_partition ⟨some ("/mnt/x"), false⟩ = (some ("/mnt/x"), false) ∧
    mount_partition ⟨none, true⟩ = (some USB_DEFAULT_MOUNT, true) ∧
    mount_partition ⟨none, false⟩ = (none, false) :=
  ⟨(c7_mount_partition_contract ⟨some ("/mnt/x"), false⟩).1 _ rfl,
   (c7_mount_partition_contract ⟨none, true⟩).2.1 rfl rfl,
   (c7_mount_partition_contract ⟨none, false⟩).2.2 rfl rfl⟩

/-- C8: for both backends `stop()` is idempotent (a second call leaves the
state produced by the first call unchanged) and safe on a never-started
session: with no child-process handle it raises no error (the model
functions are total, as every step in the source is wrapped in
`try/except`) and the session's process handle stays `none`; for the
OMX backend the whole state is unchanged, and for the MPV backend only the
stale control-socket artifact may additionally be removed, which is the
cleanup `stop` is specified to perform. -/
theorem c8_stop_idempotent_safe :
    (∀ s : MPVState, mpv_stop (mpv_stop s) = mpv_stop s) ∧
    (∀ s : OMXState, omx_stop (omx_stop s) = omx_stop s) ∧
    (∀ s : MPVState, s.proc = none → (mpv_stop s).proc = none) ∧
    (∀ s : OMXState, s.proc = none → omx_stop s = s) := by
  refine ⟨?_, ?_, ?_, ?_⟩
  · intro s
    obtain ⟨proc, sock⟩ := s
    cases proc <;> rfl
  · intro s
    rfl
  · intro s h
    simp [mpv_stop, h]
  · intro s h
    obtain ⟨proc⟩ := s
    simp only at h
    subst h
    rfl

/-- Witness for C8 on concrete session states. -/
theorem c8_stop_idempotent_safe_witness :
    mpv_stop (mpv_stop ⟨some ⟨true⟩, true⟩) = mpv_stop ⟨some ⟨true⟩, true⟩ ∧
    omx_stop (omx_stop ⟨some ⟨true⟩⟩) = omx_stop ⟨some ⟨true⟩⟩ ∧
    (mpv_stop ⟨none, false⟩).proc = none ∧
    omx_stop ⟨none⟩ = ⟨none⟩ :=
  ⟨c8_stop_idempotent_safe.1 ⟨some ⟨true⟩, true⟩,
   c8_stop_idempotent_safe.2.1 ⟨some ⟨true⟩⟩,
   c8_stop_idempotent_safe.2.2.1 ⟨none, false⟩ rfl,
   c8_stop_idempotent_safe.2.2.2 ⟨none⟩ rfl⟩

/-- C9: when neither backend executable is on the PATH, `pick_player`
returns an error for every mode and environment override, and the error
message is one of the three messages of the source, each naming the missing
dependency; in particular a specifically requested backend whose executable
is absent is an error regardless of the other executable.  Since
`main_loop` calls `pick_player` before its `while` loop, the error
propagates and the loop is never entered (`main_startup`). -/
theorem c9_no_backend_fatal_at_startup (mode envPlayer : Option String)
    (wMpv wOmx : Bool) :
    (∃ msg, main_startup mode envPlayer false false = Except.error msg ∧
      (msg = MPV_MISSING_MSG ∨ msg = OMX_MISSING_MSG ∨ msg = NEITHER_MSG)) ∧
    pick_player (some ("mpv")) none false wOmx = Except.error MPV_MISSING_MSG ∧
    pick_player (some ("omxplayer")) none wMpv false =
      Except.error OMX_MISSING_MSG := by
  refine ⟨?_, ?_, ?_⟩
  · unfold main_startup pick_player
    by_cases h1 : effective_mode mode envPlayer = "mpv"
    · refine ⟨MPV_MISSING_MSG, ?_, Or.inl rfl⟩
      simp [h1]
    · by_cases h2 : effective_mode mode envPlayer = "omxplayer"
      · refine ⟨OMX_MISSING_MSG, ?_, Or.inr (Or.inl rfl)⟩
        simp [h1, h2]
      · refine ⟨NEITHER_MSG, ?_, Or.inr (Or.inr rfl)⟩
        simp [h1, h2]
  · have he : effective_mode (some ("mpv")) none = "mpv" := by decide
    simp [pick_player, he]
  · have he : effective_mode (some ("omxplayer")) none = "omxplayer" := by decide
    have hne : ("omxplayer" : String) ≠ "mpv" := by decide
    simp [pick_player, he, hne]

/-- Witness for C9: auto mode with nothing installed, and each specific
request with its executable absent. -/
theorem c9_no_backend_fatal_at_startup_witness :
    pick_player (some ("mpv")) none false false = Except.error MPV_MISSING_MSG ∧
    pick_player (some ("omxplayer")) none false false =
      Except.error OMX_MISSING_MSG :=
  ⟨(c9_no_backend_fatal_at_startup none none false false).2.1,
   (c9_no_backend_fatal_at_startup none none false false).2.2⟩

/-! ### Helper lemmas for the copy run -/

lemma append_singleton_isEmpty (l : List (List String)) (x : List String) :
    (l ++ [x]).isEmpty = false := by
  cases l <;> rfl

/-- `copied_any` agrees with "some write happened" after each per-file
step. -/
lemma copyStep_flag_inv (dstDir root : List String) (cs : CopyState)
    (f : SrcFile) (h : cs.copied = !cs.writes.isEmpty) :
    (copyStep dstDir root cs f).copied =
      !(copyStep dstDir root cs f).writes.isEmpty := by
  unfold copyStep
  repeat' split
  all_goals simp_all [append_singleton_isEmpty]

/-- The flag/write agreement is preserved by a whole file list. -/
lemma foldl_flag_inv (dstDir root : List String) :
    ∀ (l : List SrcFile) (cs : CopyState), cs.copied = !cs.writes.isEmpty →
      (l.foldl (copyStep dstDir root) cs).copied =
        !(l.foldl (copyStep dstDir root) cs).writes.isEmpty := by
  intro l
  induction l with
  | nil => intro cs h; exact h
  | cons f t ih =>
    intro cs h
    exact ih (copyStep dstDir root cs f) (copyStep_flag_inv dstDir root cs f h)

/-- The flag/write agreement is preserved by a whole walk. -/
lemma walk_flag_inv (dstDir : List String) :
    ∀ (walk : List WalkDir) (cs : CopyState), cs.copied = !cs.writes.isEmpty →
      (walk.foldl (fun cs wd => wd.files.foldl (copyStep dstDir wd.root) cs)
        cs).copied =
      !(walk.foldl (fun cs wd => wd.files.foldl (copyStep dstDir wd.root) cs)
        cs).writes.isEmpty := by
  intro walk
  induction walk with
  | nil => intro cs h; exact h
  | cons wd t ih =>
    intro cs h
    exact ih _ (foldl_flag_inv dstDir wd.root wd.files cs h)

/-- C5: the per-file body of `copy_new_videos` overwrites the destination
with the candidate's stat (hence the candidate's modification time is
preserved on the destination) whenever the destination is missing or differs
in size or truncated mtime and the copy succeeds; a per-file I/O error
(raising stat or raising `copy2`) leaves the run state unchanged and the
walk continues with the remaining files; and the function's result flag is
`true` iff at least one file was written. -/
theorem c5_copy_updates_semantics (dstDir root : List String) :
    (∀ (cs : CopyState) (f : SrcFile) (s : Stat),
      nameHasVideoExt f.name = true → f.stat = some s → f.copyOk = true →
      (slookup cs.st (fileDst dstDir root f.name) = none ∨
        ∃ d, slookup cs.st (fileDst dstDir root f.name) = some (some d) ∧
          (s.size ≠ d.size ∨ pyTruncSec s.mtime ≠ pyTruncSec d.mtime)) →
      copyStep dstDir root cs f =
        ⟨sset cs.st (fileDst dstDir root f.name) (some s), true,
          cs.writes ++ [fileDst dstDir root f.name]⟩) ∧
    (∀ (cs : CopyState) (f : SrcFile),
      f.copyOk = false ∨ f.stat = none → copyStep dstDir root cs f = cs) ∧
    (∀ (cs : CopyState) (f : SrcFile) (rest : List SrcFile),
      copyStep dstDir root cs f = cs →
      List.foldl (copyStep dstDir root) cs (f :: rest) =
        List.foldl (copyStep dstDir root) cs rest) ∧
    (∀ (srcExists : Bool) (walk : List WalkDir) (st : Store),
      (copy_new_videos srcExists dstDir walk st).copied =
        !(copy_new_videos srcExists dstDir walk st).writes.isEmpty) := by
  refine ⟨?_, ?_, ?_, ?_⟩
  · intro cs f s hx hs hok hdiff
    unfold copyStep
    rw [hx]
    rcases hdiff with hl | ⟨d, hl, hdiff⟩
    · rw [hl, hs, hok]
      simp
    · rw [hl, hs]
      have hcond :
          (decide (s.size ≠ d.size) ||
            decide (pyTruncSec s.mtime ≠ pyTruncSec d.mtime)) = true := by
        rcases hdiff with h | h <;> simp [h]
      simp [hcond, hok]
      intro h1 h2
      rcases hdiff with h | h
      · exact absurd h1 h
      · exact absurd h2 h
  · intro cs f h
    unfold copyStep
    rcases h with h | h <;>
      · repeat' split
        all_goals simp_all
  · intro cs f rest h
    rw [List.foldl_cons, h]
  · intro srcExists walk st
    unfold copy_new_videos
    cases srcExists with
    | false => rfl
    | true =>
      simp only [if_pos]
      exact walk_flag_inv dstDir walk ⟨st, false, []⟩ rfl

/-- Witness for C5: a missing destination is written with the candidate's
stat; a failing copy is a no-op and the walk continues; the flag matches the
writes on a concrete run. -/
theorem c5_copy_updates_semantics_witness :
    copyStep ["store"] ["usb"] ⟨[], false, []⟩ ⟨"v.mp4", some ⟨4, 9⟩, true⟩ =
      ⟨[(["store", "v.mp4"], some ⟨4, 9⟩)], true, [["store", "v.mp4"]]⟩ ∧
    copyStep ["store"] ["usb"] ⟨[], false, []⟩ ⟨"w.mp4", some ⟨4, 9⟩, false⟩ =
      ⟨[], false, []⟩ ∧
    List.foldl (copyStep ["store"] ["usb"]) ⟨[], false, []⟩
        [⟨"w.mp4", some ⟨4, 9⟩, false⟩] =
      List.foldl (copyStep ["store"] ["usb"]) ⟨[], false, []⟩ [] ∧
    (copy_new_videos true ["store"] [⟨["usb"], [⟨"v.mp4", some ⟨4, 9⟩, true⟩]⟩]
        []).copied =
      !(copy_new_videos true ["store"]
        [⟨["usb"], [⟨"v.mp4", some ⟨4, 9⟩, true⟩]⟩] []).writes.isEmpty := by
  have h := c5_copy_updates_semantics ["store"] ["usb"]
  refine ⟨h.1 ⟨[], false, []⟩ ⟨"v.mp4", some ⟨4, 9⟩, true⟩ ⟨4, 9⟩ rfl rfl rfl
      (Or.inl rfl), ?_, ?_, ?_⟩
  · exact h.2.1 ⟨[], false, []⟩ ⟨"w.mp4", some ⟨4, 9⟩, false⟩ (Or.inl rfl)
  · exact h.2.2.1 ⟨[], false, []⟩ ⟨"w.mp4", some ⟨4, 9⟩, false⟩ []
      (h.2.1 ⟨[], false, []⟩ ⟨"w.mp4", some ⟨4, 9⟩, false⟩ (Or.inl rfl))
  · exact h.2.2.2 true [⟨["usb"], [⟨"v.mp4", some ⟨4, 9⟩, true⟩]⟩] []

/-- C10: both the probe and the copy form the destination from the store
directory plus the file's basename only — the destination path is
independent of the walk root (so source subdirectory structure is never
reproduced), two source files sharing a basename map to the same single
destination whatever their roots and depths, the probe's decision depends on
the store only through that one destination key, and any write of the
per-file copy body targets exactly that key. -/
theorem c10_basename_collapses_structure (dstDir r1 r2 : List String)
    (f1 f2 : SrcFile) (st st' : Store) :
    fileDst dstDir r1 f1.name = dstDir ++ [f1.name] ∧
    (f1.name = f2.name → fileDst dstDir r1 f1.name = fileDst dstDir r2 f2.name) ∧
    (slookup st (fileDst dstDir r1 f1.name) =
        slookup st' (fileDst dstDir r1 f1.name) →
      probeNeeds dstDir r1 st f1 = probeNeeds dstDir r1 st' f1) ∧
    (∀ cs : CopyState, (copyStep dstDir r1 cs f1).st = cs.st ∨
      ∃ v, (copyStep dstDir r1 cs f1).st =
        sset cs.st (dstDir ++ [f1.name]) v) := by
  refine ⟨rfl, ?_, ?_, ?_⟩
  · intro h
    simp [fileDst, h]
  · intro h
    unfold probeNeeds
    rw [h]
  · intro cs
    unfold copyStep
    repeat' split
    all_goals first
      | (left; rfl)
      | (right; exact ⟨_, rfl⟩)

/-- Witness for C10: two files named `v.mp4` at different depths share one
destination, and the probe agrees across stores that agree on that key. -/
theorem c10_basename_collapses_structure_witness :
    fileDst ["store"] ["usb", "a", "b"] "v.mp4" =
      fileDst ["store"] ["usb"] "v.mp4" ∧
    probeNeeds ["store"] ["usb", "a", "b"] [(["store", "v.mp4"], some ⟨1, 2⟩)]
        ⟨"v.mp4", some ⟨1, 2⟩, true⟩ =
      probeNeeds ["store"] ["usb", "a", "b"]
        [(["store", "v.mp4"], some ⟨1, 2⟩), (["store", "x.mp4"], none)]
        ⟨"v.mp4", some ⟨1, 2⟩, true⟩ := by
  have h := c10_basename_collapses_structure ["store"] ["usb", "a", "b"]
    ["usb"] ⟨"v.mp4", some ⟨1, 2⟩, true⟩ ⟨"v.mp4", some ⟨1, 2⟩, true⟩
    [(["store", "v.mp4"], some ⟨1, 2⟩)]
    [(["store", "v.mp4"], some ⟨1, 2⟩), (["store", "x.mp4"], none)]
  exact ⟨h.2.1 rfl, h.2.2.1 rfl⟩

/-! ### Helper lemmas for the USB sync cycle -/

lemma pairMem_true_iff (p : String × Bool) (l : List (String × Bool)) :
    pairMem p l = true ↔ p ∈ l := by
  unfold pairMem
  simp [List.any_eq_true]

lemma pairMem_append_self (p : String × Bool) (l : List (String × Bool)) :
    pairMem p (l ++ [p]) = true := by
  rw [pairMem_true_iff]
  exact List.mem_append_right _ (List.mem_singleton_self p)

/-- One `check_usb_for_updates` device step, by cases: an unmountable
device leaves the accumulator alone; a device that needs a copy only
extends `needs` (its own pair is then in `needs`, so no immediate unmount);
a mounted-by-us device that needs no copy and whose pair is not already in
the accumulated `needs` is unmounted immediately; any other device leaves
the accumulator alone. -/
lemma checkStep_none (wc : String → Bool) (cd : String → List String)
    (acc : List (String × Bool) × List Act) (e : MountEnv) (b : Bool)
    (h : mount_partition e = (none, b)) :
    checkStep wc cd acc e = acc := by
  unfold checkStep
  rw [h]

lemma checkStep_hit (wc : String → Bool) (cd : String → List String)
    (acc : List (String × Bool) × List Act) (e : MountEnv) (mnt : String)
    (byUs : Bool) (h : mount_partition e = (some mnt, byUs))
    (hw : (cd mnt).any wc = true) :
    checkStep wc cd acc e = (acc.1 ++ [(mnt, byUs)], acc.2) := by
  unfold checkStep
  rw [h]
  simp [hw, pairMem_append_self]

lemma checkStep_miss_umount (wc : String → Bool) (cd : String → List String)
    (acc : List (String × Bool) × List Act) (e : MountEnv) (mnt : String)
    (h : mount_partition e = (some mnt, true))
    (hw : (cd mnt).any wc = false)
    (hpm : pairMem (mnt, true) acc.1 = false) :
    checkStep wc cd acc e = (acc.1, acc.2 ++ [Act.umount mnt]) := by
  unfold checkStep
  rw [h]
  simp [hw, hpm]

lemma checkStep_miss_skip (wc : String → Bool) (cd : String → List String)
    (acc : List (String × Bool) × List Act) (e : MountEnv) (mnt : String)
    (byUs : Bool) (h : mount_partition e = (some mnt, byUs))
    (hw : (cd mnt).any wc = false)
    (hc : (!pairMem (mnt, byUs) acc.1 && byUs) = false) :
    checkStep wc cd acc e = acc := by
  unfold checkStep
  rw [h]
  simp [hw, hc]

lemma checkStep_cases (wc : String → Bool) (cd : String → List String)
    (acc : List (String × Bool) × List Act) (e : MountEnv) :
    checkStep wc cd acc e = acc ∨
    (∃ mnt byUs, mount_partition e = (some mnt, byUs) ∧
      (cd mnt).any wc = true ∧
      checkStep wc cd acc e = (acc.1 ++ [(mnt, byUs)], acc.2)) ∨
    (∃ mnt, mount_partition e = (some mnt, true) ∧
      (cd mnt).any wc = false ∧ pairMem (mnt, true) acc.1 = false ∧
      checkStep wc cd acc e = (acc.1, acc.2 ++ [Act.umount mnt])) := by
  rcases h : mount_partition e with ⟨mp, byUs⟩
  cases mp with
  | none => exact Or.inl (checkStep_none wc cd acc e byUs h)
  | some mnt =>
    by_cases hw : (cd mnt).any wc
    · exact Or.inr (Or.inl ⟨mnt, byUs, rfl, hw, checkStep_hit wc cd acc e mnt byUs h hw⟩)
    · have hw' : (cd mnt).any wc = false := Bool.eq_false_iff.mpr hw
      by_cases hc : (!pairMem (mnt, byUs) acc.1 && byUs) = true
      · have hby : byUs = true := ((Bool.and_eq_true _ _).mp hc).2
        have hpm : pairMem (mnt, byUs) acc.1 = false := by
          have h1 := ((Bool.and_eq_true _ _).mp hc).1
          rwa [Bool.not_eq_true'] at h1
        subst hby
        exact Or.inr (Or.inr ⟨mnt, rfl, hw', hpm,
          checkStep_miss_umount wc cd acc e mnt h hw' hpm⟩)
      · have hc' : (!pairMem (mnt, byUs) acc.1 && byUs) = false :=
          Bool.eq_false_iff.mpr hc
        exact Or.inl (checkStep_miss_skip wc cd acc e mnt byUs h hw' hc')

lemma checkStep_acts_mono (wc : String → Bool) (cd : String → List String)
    (acc : List (String × Bool) × List Act) (e : MountEnv) :
    ∃ t, (checkStep wc cd acc e).2 = acc.2 ++ t := by
  rcases checkStep_cases wc cd acc e with h | ⟨mnt, byUs, _, _, h⟩ | ⟨mnt, _, _, _, h⟩
  · exact ⟨[], by rw [h]; simp⟩
  · exact ⟨[], by rw [h]; simp⟩
  · exact ⟨[Act.umount mnt], by rw [h]⟩

lemma checkStep_needs_mono (wc : String → Bool) (cd : String → List String)
    (acc : List (String × Bool) × List Act) (e : MountEnv) :
    ∃ t, (checkStep wc cd acc e).1 = acc.1 ++ t := by
  rcases checkStep_cases wc cd acc e with h | ⟨mnt, byUs, _, _, h⟩ | ⟨mnt, _, _, _, h⟩
  · exact ⟨[], by rw [h]; simp⟩
  · exact ⟨[(mnt, byUs)], by rw [h]⟩
  · exact ⟨[], by rw [h]; simp⟩

lemma check_foldl_acts_mono (wc : String → Bool) (cd : String → List String) :
    ∀ (l : List MountEnv) (acc : List (String × Bool) × List Act),
      ∃ t, (List.foldl (checkStep wc cd) acc l).2 = acc.2 ++ t := by
  intro l
  induction l with
  | nil => intro acc; exact ⟨[], by simp⟩
  | cons e t ih =>
    intro acc
    obtain ⟨t1, h1⟩ := checkStep_acts_mono wc cd acc e
    obtain ⟨t2, h2⟩ := ih (checkStep wc cd acc e)
    exact ⟨t1 ++ t2, by rw [List.foldl_cons, h2, h1, List.append_assoc]⟩

lemma check_foldl_needs_mono (wc : String → Bool) (cd : String → List String) :
    ∀ (l : List MountEnv) (acc : List (String × Bool) × List Act),
      ∃ t, (List.foldl (checkStep wc cd) acc l).1 = acc.1 ++ t := by
  intro l
  induction l with
  | nil => intro acc; exact ⟨[], by simp⟩
  | cons e t ih =>
    intro acc
    obtain ⟨t1, h1⟩ := checkStep_needs_mono wc cd acc e
    obtain ⟨t2, h2⟩ := ih (checkStep wc cd acc e)
    exact ⟨t1 ++ t2, by rw [List.foldl_cons, h2, h1, List.append_assoc]⟩

/-- Every pair accumulated in `needs` belongs to a candidate set that the
probe flagged. -/
lemma checkStep_needs_inv (wc : String → Bool) (cd : String → List String)
    (acc : List (String × Bool) × List Act) (e : MountEnv)
    (hP : ∀ m b, (m, b) ∈ acc.1 → (cd m).any wc = true) :
    ∀ m b, (m, b) ∈ (checkStep wc cd acc e).1 → (cd m).any wc = true := by
  intro m b hm
  rcases checkStep_cases wc cd acc e with h | ⟨mnt, byUs, _, hw, h⟩ | ⟨mnt, _, _, _, h⟩
  · rw [h] at hm
    exact hP m b hm
  · rw [h] at hm
    rcases List.mem_append.mp hm with h1 | h1
    · exact hP m b h1
    · have h2 := List.mem_singleton.mp h1
      have hm2 : m = mnt := congrArg Prod.fst h2
      rw [hm2]
      exact hw
  · rw [h] at hm
    exact hP m b hm

/-- A mounted-by-us device that needs no copy is unmounted during the probe,
as long as every accumulated `needs` pair really needs a copy (true from the
empty accumulator). -/
lemma check_immediate_umount (wc : String → Bool) (cd : String → List String) :
    ∀ (l : List MountEnv) (acc : List (String × Bool) × List Act)
      (e : MountEnv) (mnt : String),
      (∀ m b, (m, b) ∈ acc.1 → (cd m).any wc = true) →
      e ∈ l → mount_partition e = (some mnt, true) → (cd mnt).any wc = false →
      Act.umount mnt ∈ (List.foldl (checkStep wc cd) acc l).2 := by
  intro l
  induction l with
  | nil => intro acc e mnt _ he _ _; cases he
  | cons e0 t ih =>
    intro acc e mnt hP he hm hw
    rcases List.mem_cons.mp he with rfl | he'
    · have hpm : pairMem (mnt, true) acc.1 = false := by
        cases hxx : pairMem (mnt, true) acc.1 with
        | false => rfl
        | true =>
          have hmem := (pairMem_true_iff _ _).mp hxx
          have hone := hP mnt true hmem
          rw [hone] at hw
          exact Bool.noConfusion hw
      have hstep := checkStep_miss_umount wc cd acc e mnt hm hw hpm
      obtain ⟨t2, h2⟩ := check_foldl_acts_mono wc cd t (checkStep wc cd acc e)
      rw [List.foldl_cons, h2, hstep]
      exact List.mem_append_left _
        (List.mem_append_right _ (List.mem_singleton_self _))
    · have hP' := checkStep_needs_inv wc cd acc e0 hP
      exact ih (checkStep wc cd acc e0) e mnt hP' he' hm hw

/-- A device that needs a copy contributes its pair to the final `needs`
list. -/
lemma check_appends_pair (wc : String → Bool) (cd : String → List String) :
    ∀ (l : List MountEnv) (acc : List (String × Bool) × List Act)
      (e : MountEnv) (mnt : String) (byUs : Bool),
      e ∈ l → mount_partition e = (some mnt, byUs) → (cd mnt).any wc = true →
      (mnt, byUs) ∈ (List.foldl (checkStep wc cd) acc l).1 := by
  intro l
  induction l with
  | nil => intro acc e mnt byUs he _ _; cases he
  | cons e0 t ih =>
    intro acc e mnt byUs he hm hw
    rcases List.mem_cons.mp he with rfl | he'
    · have hstep := checkStep_hit wc cd acc e mnt byUs hm hw
      obtain ⟨t2, h2⟩ := check_foldl_needs_mono wc cd t (checkStep wc cd acc e)
      rw [List.foldl_cons, h2, hstep]
      exact List.mem_append_left _
        (List.mem_append_right _ (List.mem_singleton_self _))
    · exact ih (checkStep wc cd acc e0) e mnt byUs he' hm hw

/-- Every unmount the probe performs originates from a device this process
mounted. -/
lemma check_umount_origin (wc : String → Bool) (cd : String → List String) :
    ∀ (l : List MountEnv) (acc : List (String × Bool) × List Act) (m : String),
      Act.umount m ∈ (List.foldl (checkStep wc cd) acc l).2 →
      Act.umount m ∈ acc.2 ∨ ∃ e, e ∈ l ∧ mount_partition e = (some m, true) := by
  intro l
  induction l with
  | nil => intro acc m h; exact Or.inl h
  | cons e0 t ih =>
    intro acc m h
    rw [List.foldl_cons] at h
    rcases ih (checkStep wc cd acc e0) m h with h1 | ⟨e, he, hm⟩
    · rcases checkStep_cases wc cd acc e0 with hq | ⟨mnt, byUs, _, _, hq⟩ |
        ⟨mnt, hm0, _, _, hq⟩
      · rw [hq] at h1
        exact Or.inl h1
      · rw [hq] at h1
        exact Or.inl h1
      · rw [hq] at h1
        rcases List.mem_append.mp h1 with h2 | h2
        · exact Or.inl h2
        · have h3 := List.mem_singleton.mp h2
          have hmnt : m = mnt := by injection h3
          rw [hmnt]
          exact Or.inr ⟨e0, List.mem_cons_self _ _, hm0⟩
    · exact Or.inr ⟨e, List.mem_cons_of_mem _ he, hm⟩

/-- Every pair in the final `needs` list originates from some scanned
device. -/
lemma check_needs_origin (wc : String → Bool) (cd : String → List String) :
    ∀ (l : List MountEnv) (acc : List (String × Bool) × List Act)
      (m : String) (b : Bool),
      (m, b) ∈ (List.foldl (checkStep wc cd) acc l).1 →
      (m, b) ∈ acc.1 ∨ ∃ e, e ∈ l ∧ mount_partition e = (some m, b) := by
  intro l
  induction l with
  | nil => intro acc m b h; exact Or.inl h
  | cons e0 t ih =>
    intro acc m b h
    rw [List.foldl_cons] at h
    rcases ih (checkStep wc cd acc e0) m b h with h1 | ⟨e, he, hm⟩
    · rcases checkStep_cases wc cd acc e0 with hq | ⟨mnt, byUs, hm0, _, hq⟩ |
        ⟨mnt, _, _, _, hq⟩
      · rw [hq] at h1
        exact Or.inl h1
      · rw [hq] at h1
        rcases List.mem_append.mp h1 with h2 | h2
        · exact Or.inl h2
        · have h3 := List.mem_singleton.mp h2
          have hmnt : m = mnt := congrArg Prod.fst h3
          have hby : b = byUs := congrArg Prod.snd h3
          rw [hmnt, hby]
          exact Or.inr ⟨e0, List.mem_cons_self _ _, hm0⟩
      · rw [hq] at h1
        exact Or.inl h1
    · exact Or.inr ⟨e, List.mem_cons_of_mem _ he, hm⟩

lemma performStep_acts_mono (cn : String → Bool) (cd : String → List String)
    (acc : Bool × List Act) (p : String × Bool) :
    ∃ t, (performStep cn cd acc p).2 = acc.2 ++ t := by
  by_cases h : p.2
  · exact ⟨(cd p.1).map Act.copyDir ++ [Act.umount p.1],
      by simp [performStep, h, List.append_assoc]⟩
  · exact ⟨(cd p.1).map Act.copyDir, by simp [performStep, h]⟩

lemma perform_foldl_acts_mono (cn : String → Bool) (cd : String → List String) :
    ∀ (l : List (String × Bool)) (acc : Bool × List Act),
      ∃ t, (List.foldl (performStep cn cd) acc l).2 = acc.2 ++ t := by
  intro l
  induction l with
  | nil => intro acc; exact ⟨[], by simp⟩
  | cons p t ih =>
    intro acc
    obtain ⟨t1, h1⟩ := performStep_acts_mono cn cd acc p
    obtain ⟨t2, h2⟩ := ih (performStep cn cd acc p)
    exact ⟨t1 ++ t2, by rw [List.foldl_cons, h2, h1, List.append_assoc]⟩

/-- Every `needs` volume we mounted is unmounted by the copy phase. -/
lemma perform_mem_umount (cn : String → Bool) (cd : String → List String) :
    ∀ (l : List (String × Bool)) (acc : Bool × List Act) (m : String),
      (m, true) ∈ l →
      Act.umount m ∈ (List.foldl (performStep cn cd) acc l).2 := by
  intro l
  induction l with
  | nil => intro acc m h; cases h
  | cons p t ih =>
    intro acc m h
    rcases List.mem_cons.mp h with rfl | h'
    · obtain ⟨t2, h2⟩ := perform_foldl_acts_mono cn cd t (performStep cn cd acc (m, true))
      rw [List.foldl_cons, h2]
      have hstep : Act.umount m ∈ (performStep cn cd acc (m, true)).2 := by
        simp [performStep]
      exact List.mem_append_left _ hstep
    · exact ih _ m h'

/-- Every candidate directory of every `needs` volume is copied from in the
copy phase. -/
lemma perform_mem_copy (cn : String → Bool) (cd : String → List String) :
    ∀ (l : List (String × Bool)) (acc : Bool × List Act) (m : String)
      (b : Bool) (c : String),
      (m, b) ∈ l → c ∈ cd m →
      Act.copyDir c ∈ (List.foldl (performStep cn cd) acc l).2 := by
  intro l
  induction l with
  | nil => intro acc m b c h _; cases h
  | cons p t ih =>
    intro acc m b c h hc
    rcases List.mem_cons.mp h with rfl | h'
    · obtain ⟨t2, h2⟩ := perform_foldl_acts_mono cn cd t (performStep cn cd acc (m, b))
      rw [List.foldl_cons, h2]
      have hstep : Act.copyDir c ∈ (performStep cn cd acc (m, b)).2 := by
        have hmap : Act.copyDir c ∈ (cd m).map Act.copyDir :=
          List.mem_map_of_mem _ hc
        by_cases hb : b
        · rw [show (performStep cn cd acc (m, b)).2 =
              acc.2 ++ (cd m).map Act.copyDir ++ [Act.umount m] from by
            simp [performStep, hb]]
          exact List.mem_append_left _ (List.mem_append_right _ hmap)
        · rw [show (performStep cn cd acc (m, b)).2 =
              acc.2 ++ (cd m).map Act.copyDir from by
            simp [performStep, hb]]
          exact List.mem_append_right _ hmap
      exact List.mem_append_left _ hstep
    · exact ih _ m b c h' hc

/-- Every unmount of the copy phase comes from a `needs` entry with
`mounted_by_us = true`. -/
lemma perform_umount_origin (cn : String → Bool) (cd : String → List String) :
    ∀ (l : List (String × Bool)) (acc : Bool × List Act) (m : String),
      Act.umount m ∈ (List.foldl (performStep cn cd) acc l).2 →
      Act.umount m ∈ acc.2 ∨ (m, true) ∈ l := by
  intro l
  induction l with
  | nil => intro acc m h; exact Or.inl h
  | cons p t ih =>
    intro acc m h
    rw [List.foldl_cons] at h
    rcases ih (performStep cn cd acc p) m h with h1 | h1
    · by_cases hb : p.2
      · rw [show performStep cn cd acc p =
            (acc.1 || (cd p.1).any cn,
              acc.2 ++ (cd p.1).map Act.copyDir ++ [Act.umount p.1]) by
            simp [performStep, hb]] at h1
        rcases List.mem_append.mp h1 with h2 | h2
        · rcases List.mem_append.mp h2 with h3 | h3
          · exact Or.inl h3
          · rcases List.mem_map.mp h3 with ⟨c, _, hc⟩
            cases hc
        · have hm : m = p.1 := by
            have := List.mem_singleton.mp h2
            injection this
          have hp : (m, true) = p := by
            rcases p with ⟨a, b⟩
            simp only at hb hm
            rw [hm, hb]
          exact Or.inr (hp ▸ List.mem_cons_self _ _)
      · rw [show performStep cn cd acc p =
            (acc.1 || (cd p.1).any cn, acc.2 ++ (cd p.1).map Act.copyDir) by
            simp [performStep, hb]] at h1
        rcases List.mem_append.mp h1 with h2 | h2
        · exact Or.inl h2
        · rcases List.mem_map.mp h2 with ⟨c, _, hc⟩
          cases hc
    · exact Or.inr (List.mem_cons_of_mem _ h1)

/-- C2: in a loop iteration where the sync check reports at least one volume
needing a copy, phase A stops the player first, then performs the whole copy
phase (copying from every candidate directory of every flagged volume and
unmounting the mounted-by-us ones), and — because something was copied and
the store query yields a file — picks the newest store file and starts it
playing immediately, skipping the paused-preview and button wait entirely,
then blocks polling end-of-stream and re-enters the sync check
(`Next.resync`). -/
theorem c2_update_stops_copies_plays (wc cn : String → Bool)
    (cd : String → List String) (devs : List MountEnv)
    (tEx : Bool) (tEs : List TEntry) (f : TEntry)
    (hneeds : (check_usb_for_updates wc cd devs).1 ≠ [])
    (hcopied : (perform_copy_and_unmount cn cd
      (check_usb_for_updates wc cd devs).1).1 = true)
    (hpick : pick_video_from_target tEx tEs = Except.ok (some f)) :
    main_iter wc cn cd devs tEx tEs =
      Except.ok ((check_usb_for_updates wc cd devs).2 ++ [Act.stop] ++
        (perform_copy_and_unmount cn cd (check_usb_for_updates wc cd devs).1).2 ++
        [Act.pickNewest, Act.startPlaying f.name, Act.waitEof], Next.resync) ∧
    (∀ mnt b, (mnt, b) ∈ (check_usb_for_updates wc cd devs).1 →
      (∀ c, c ∈ cd mnt → Act.copyDir c ∈
        (perform_copy_and_unmount cn cd (check_usb_for_updates wc cd devs).1).2) ∧
      (b = true → Act.umount mnt ∈
        (perform_copy_and_unmount cn cd (check_usb_for_updates wc cd devs).1).2)) := by
  constructor
  · have hne : (check_usb_for_updates wc cd devs).1.isEmpty = false := by
      rcases hh : (check_usb_for_updates wc cd devs).1 with _ | ⟨a, t⟩
      · exact absurd hh hneeds
      · rfl
    simp only [main_iter]
    rw [hne, hcopied, hpick]
    simp
  · intro mnt b hmb
    constructor
    · intro c hc
      exact perform_mem_copy cn cd _ (false, []) mnt b c hmb hc
    · intro hb
      subst hb
      exact perform_mem_umount cn cd _ (false, []) mnt hmb

/-- Witness for C2: one attached pre-mounted volume needing a copy; the
iteration stops the player, copies, picks and immediately plays the newest
store file, then waits for end of stream and re-enters the sync check. -/
theorem c2_update_stops_copies_plays_witness :
    main_iter (fun _ => true) (fun _ => true) (fun m => [m])
      [⟨some ("/mnt/a"), false⟩] true [⟨"a.mp4", true, some ⟨5, 10⟩⟩] =
      Except.ok ([Act.stop, Act.copyDir ("/mnt/a"), Act.pickNewest,
        Act.startPlaying ("a.mp4"), Act.waitEof], Next.resync) := by
  have h := c2_update_stops_copies_plays (fun _ => true) (fun _ => true)
    (fun m => [m]) [⟨some ("/mnt/a"), false⟩] true
    [⟨"a.mp4", true, some ⟨5, 10⟩⟩] ⟨"a.mp4", true, some ⟨5, 10⟩⟩
    (by decide) rfl rfl
  exact h.1

/-- C3: across one sync cycle, every device this process mounted gets an
unmount of its mountpoint — during the probe when it needs no copy, and in
the copy phase (after that volume's copies) when it does — and every unmount
the cycle performs, in either phase, originates from a device mounted by
this process, never from a pre-existing system mount. -/
theorem c3_release_exactly_ours (wc cn : String → Bool)
    (cd : String → List String) (devs : List MountEnv) :
    (∀ e, e ∈ devs → ∀ mnt, mount_partition e = (some mnt, true) →
      ((cd mnt).any wc = false →
        Act.umount mnt ∈ (check_usb_for_updates wc cd devs).2) ∧
      ((cd mnt).any wc = true →
        Act.umount mnt ∈ (perform_copy_and_unmount cn cd
          (check_usb_for_updates wc cd devs).1).2)) ∧
    (∀ m, Act.umount m ∈ (check_usb_for_updates wc cd devs).2 ++
        (perform_copy_and_unmount cn cd (check_usb_for_updates wc cd devs).1).2 →
      ∃ e, e ∈ devs ∧ mount_partition e = (some m, true)) := by
  constructor
  · intro e he mnt hm
    constructor
    · intro hw
      exact check_immediate_umount wc cd devs ([], []) e mnt
        (fun m b hmb => absurd hmb (List.not_mem_nil _)) he hm hw
    · intro hw
      have hne : (mnt, true) ∈ (check_usb_for_updates wc cd devs).1 :=
        check_appends_pair wc cd devs ([], []) e mnt true he hm hw
      exact perform_mem_umount cn cd _ (false, []) mnt hne
  · intro m hmem
    rcases List.mem_append.mp hmem with h | h
    · rcases check_umount_origin wc cd devs ([], []) m h with h0 | h0
      · exact absurd h0 (List.not_mem_nil _)
      · exact h0
    · rcases perform_umount_origin cn cd (check_usb_for_updates wc cd devs).1
        (false, []) m h with h0 | h0
      · exact absurd h0 (List.not_mem_nil _)
      · rcases check_needs_origin wc cd devs ([], []) m true h0 with h1 | h1
        · exact absurd h1 (List.not_mem_nil _)
        · exact h1

/-- Witness for C3: a volume mounted by this process that needs no copy is
released during the probe itself. -/
theorem c3_release_exactly_ours_witness :
    Act.umount USB_DEFAULT_MOUNT ∈
      (check_usb_for_updates (fun _ => false) (fun m => [m]) [⟨none, true⟩]).2 :=
  ((c3_release_exactly_ours (fun _ => false) (fun _ => true) (fun m => [m])
      [⟨none, true⟩]).1 ⟨none, true⟩ (List.mem_singleton_self _)
      USB_DEFAULT_MOUNT rfl).1 rfl

/-- C6 (code bug): `pick_video_from_target` evaluates `p.stat()` inside the
sort key with no handler, so one filtered entry whose stat raises (for
example a file deleted between the listing and the sort) aborts the whole
scan with the exception instead of being skipped — here a perfectly readable
`a.mp4` is present and would otherwise be returned. -/
theorem c6_unreadable_entry_aborts_scan :
    pick_video_from_target true
      [⟨"a.mp4", true, some ⟨5, 10⟩⟩, ⟨"b.mp4", true, none⟩] =
      Except.error () := by
  rfl

end PiSpooky
